import Mathlib

/-!
Verification development for the ASM2464PD firmware emulator
(`emulate/memory.py`, `emulate/hardware.py`, `emulate/emu.py`).

The Python memory subsystem and hardware-state machine are shallowly
embedded: `bytearray`s become total functions `Nat → Nat` read only on
their index domain, Python `dict`s become `Nat → Option Nat` (or
`Nat → Nat` for counters whose reads default to zero, mirroring
`dict.get(k, 0)`), and methods that mutate `self` become functions that
return the updated state.  Hook tables hold arbitrary Python callables;
the embedding keeps, for each table, the set of hooked addresses as a
`Bool`-valued predicate, an abstract response function `hookRead` for
read hooks, and a log `hookLog` recording each write-hook invocation.

Python bitwise idioms on byte values are rendered on `Nat` as follows:
`x & 0xFF` and `x & 0xFFFF` are `x &&& 0xFF` and `x &&& 0xFFFF`; a
masked clear `x & ~m` (with `x` a byte, as every stored value is) is
`x &&& (0xFF ^^^ m)`; the truth test `if x & m:` is `x &&& m ≠ 0`.
-/

namespace Asm2464

/-- Point update of a total function, modelling `array[a] = v`. -/
def upd (f : Nat → Nat) (a v : Nat) : Nat → Nat :=
  fun b => if b = a then v else f b

/-- Point update of a partial map, modelling `dict[a] = v`. -/
def updO (f : Nat → Option Nat) (a v : Nat) : Nat → Option Nat :=
  fun b => if b = a then some v else f b

/-- Error raised by the defensive SFR address checks (`ValueError` for an
address below 0x80, `IndexError` for a backing-store index past the end of
the 128-byte `sfr` bytearray). -/
inductive MemErr where
  | invalidAddress (addr : Nat)
  | indexError (idx : Nat)
deriving DecidableEq, Repr

/-- Embedding of `memory.py` class `Memory`.  `code` is the CODE bytearray
(of length `codeLen`, 0x18000 by default), `idata` 256 bytes, `xdata`
65536 bytes, `sfr` 128 bytes indexed by `addr - 0x80`.  `syncFlagPolls`
is the poll-counter dict (absent keys read as 0).  The `*Hooked`
predicates record which addresses carry read/write hooks; `hookRead`
abstracts the value a read hook returns; `hookLog` records each
write-hook invocation as an `(address, value)` pair. -/
structure Memory where
  code : Nat → Nat
  codeLen : Nat
  idata : Nat → Nat
  xdata : Nat → Nat
  sfr : Nat → Nat
  syncFlagPolls : Nat → Nat
  xdataReadHooked : Nat → Bool
  xdataWriteHooked : Nat → Bool
  idataReadHooked : Nat → Bool
  idataWriteHooked : Nat → Bool
  sfrReadHooked : Nat → Bool
  sfrWriteHooked : Nat → Bool
  hookRead : Nat → Nat
  hookLog : List (Nat × Nat)

/-- `Memory.SFR_DPX`: the code-bank register DPX lives at SFR 0x96. -/
def SFR_DPX : Nat := 0x96

/-- `Memory.BANK1_FILE_BASE`: bank 1 code starts at file offset 0xFF6B. -/
def BANK1_FILE_BASE : Nat := 0xFF6B

/-- `Memory.SYNC_FLAG_ADDRS`: XDATA addresses with sync-flag auto-clear. -/
def SYNC_FLAG_ADDRS : List Nat := [0x1238]

/-- `Memory.SYNC_FLAG_CLEAR_AFTER`: clear a sync flag after this many polls. -/
def SYNC_FLAG_CLEAR_AFTER : Nat := 5

/-- `Memory.read_code`: CODE read with banking.  Addresses at or above
0x8000 consult bit 0 of DPX (SFR 0x96); bank 1 maps the upper half to
file offset `0xFF6B + (addr - 0x8000)`.  Out-of-range file offsets read
as 0xFF. -/
def Memory.read_code (m : Memory) (a : Nat) : Nat :=
  let addr := a &&& 0xFFFF
  if 0x8000 ≤ addr ∧ (m.sfr (SFR_DPX - 0x80)) &&& 1 ≠ 0 then
    let fileAddr := BANK1_FILE_BASE + (addr - 0x8000)
    if fileAddr < m.codeLen then m.code fileAddr else 0xFF
  else
    if addr < m.codeLen then m.code addr else 0xFF

/-- `Memory.read_idata`: IDATA read, consulting the read-hook table first. -/
def Memory.read_idata (m : Memory) (a : Nat) : Nat :=
  let addr := a &&& 0xFF
  if m.idataReadHooked addr then m.hookRead addr else m.idata addr

/-- `Memory.write_idata`: IDATA write.  When a write hook is registered the
hook is invoked and the backing store is still updated. -/
def Memory.write_idata (m : Memory) (a v : Nat) : Memory :=
  let addr := a &&& 0xFF
  let value := v &&& 0xFF
  if m.idataWriteHooked addr then
    { m with hookLog := (addr, value) :: m.hookLog,
             idata := upd m.idata addr value }
  else
    { m with idata := upd m.idata addr value }

/-- `Memory.read_xdata`: XDATA read.  MMIO read hooks are consulted first;
otherwise a sync-flag address with bit 0 set counts the poll and
auto-clears once the counter reaches `SYNC_FLAG_CLEAR_AFTER`. -/
def Memory.read_xdata (m : Memory) (a : Nat) : Nat × Memory :=
  let addr := a &&& 0xFFFF
  if m.xdataReadHooked addr then
    (m.hookRead addr, m)
  else if addr ∈ SYNC_FLAG_ADDRS then
    let value := m.xdata addr
    if value &&& 0x01 ≠ 0 then
      let polls := m.syncFlagPolls addr + 1
      if SYNC_FLAG_CLEAR_AFTER ≤ polls then
        (0x00, { m with xdata := upd m.xdata addr 0x00,
                        syncFlagPolls := upd m.syncFlagPolls addr 0 })
      else
        (value, { m with syncFlagPolls := upd m.syncFlagPolls addr polls })
    else
      (value, m)
  else
    (m.xdata addr, m)

/-- `Memory.write_xdata`: XDATA write.  When a write hook is registered,
only the hook runs; the backing store is not touched. -/
def Memory.write_xdata (m : Memory) (a v : Nat) : Memory :=
  let addr := a &&& 0xFFFF
  let value := v &&& 0xFF
  if m.xdataWriteHooked addr then
    { m with hookLog := (addr, value) :: m.hookLog }
  else
    { m with xdata := upd m.xdata addr value }

/-- `Memory.read_sfr`: SFR read.  Addresses below 0x80 fail the defensive
check (`ValueError`); the backing store is the 128-byte array indexed by
`addr - 0x80`, so indices past it raise `IndexError`. -/
def Memory.read_sfr (m : Memory) (addr : Nat) : Except MemErr Nat :=
  if addr < 0x80 then
    .error (.invalidAddress addr)
  else if m.sfrReadHooked addr then
    .ok (m.hookRead addr)
  else if addr - 0x80 < 0x80 then
    .ok (m.sfr (addr - 0x80))
  else
    .error (.indexError (addr - 0x80))

/-- `Memory.write_sfr`: SFR write.  The defensive check precedes every
mutation, so the state component is returned unchanged on that failure;
with a hook registered the hook runs and the backing store is still
updated. -/
def Memory.write_sfr (m : Memory) (addr v : Nat) : Memory × Option MemErr :=
  if addr < 0x80 then
    (m, some (.invalidAddress addr))
  else
    let value := v &&& 0xFF
    let m1 := if m.sfrWriteHooked addr then
                { m with hookLog := (addr, value) :: m.hookLog }
              else m
    if addr - 0x80 < 0x80 then
      ({ m1 with sfr := upd m1.sfr (addr - 0x80) value }, none)
    else
      (m1, some (.indexError (addr - 0x80)))

/-- `Memory.read_bit`: bit addresses below 0x80 read bit `b mod 8` of IDATA
byte `0x20 + b / 8`; others read bit `b mod 8` of SFR `b &&& 0xF8` through
`read_sfr`. -/
def Memory.read_bit (m : Memory) (b : Nat) : Except MemErr Bool :=
  if b < 0x80 then
    let byteAddr := 0x20 + (b >>> 3)
    let bitPos := b &&& 0x07
    .ok (m.idata byteAddr &&& (1 <<< bitPos) != 0)
  else
    let sfrAddr := b &&& 0xF8
    let bitPos := b &&& 0x07
    (m.read_sfr sfrAddr).map (fun v => v &&& (1 <<< bitPos) != 0)

/-- `Memory.write_bit`: set or clear one bit of the underlying IDATA or SFR
byte (the clear `val & ~(1 << bit)` is rendered `&&& (0xFF ^^^ mask)` on
the byte-valued store). -/
def Memory.write_bit (m : Memory) (b : Nat) (value : Bool) : Memory × Option MemErr :=
  if b < 0x80 then
    let byteAddr := 0x20 + (b >>> 3)
    let bitPos := b &&& 0x07
    let old := m.idata byteAddr
    let new := if value then old ||| (1 <<< bitPos)
               else old &&& (0xFF ^^^ (1 <<< bitPos))
    ({ m with idata := upd m.idata byteAddr new }, none)
  else
    let sfrAddr := b &&& 0xF8
    let bitPos := b &&& 0x07
    match m.read_sfr sfrAddr with
    | .error e => (m, some e)
    | .ok val =>
      let val1 := if value then val ||| (1 <<< bitPos)
                  else val &&& (0xFF ^^^ (1 <<< bitPos))
      m.write_sfr sfrAddr val1

/-- `Memory.reset`: clear IDATA, clear SFR and set SP (SFR 0x81) to 0x07,
fill XDATA 0x7000..0x7FFF with 0xFF and pre-set the PD debug variables
XDATA[0x0AE5] = 0x00 and XDATA[0x0AF0] = 0x3F.  The XDATA clear is
commented out in the source (real hardware may retain values), so all
other XDATA bytes are left as they were. -/
def Memory.reset (m : Memory) : Memory :=
  let idata1 := fun i => if i < 256 then 0 else m.idata i
  let sfr0 := fun i => if i < 128 then 0 else m.sfr i
  let sfr1 := upd sfr0 (0x81 - 0x80) 0x07
  let xdata0 := fun a => if 0x7000 ≤ a ∧ a < 0x8000 then 0xFF else m.xdata a
  let xdata1 := upd (upd xdata0 0x0AE5 0x00) 0x0AF0 0x3F
  { m with idata := idata1, sfr := sfr1, xdata := xdata1 }

/-- A freshly constructed `Memory()`: zeroed bytearrays (CODE of length
0x18000), empty dicts and hook tables. -/
def Memory.mk0 : Memory where
  code := fun _ => 0
  codeLen := 0x18000
  idata := fun _ => 0
  xdata := fun _ => 0
  sfr := fun _ => 0
  syncFlagPolls := fun _ => 0
  xdataReadHooked := fun _ => false
  xdataWriteHooked := fun _ => false
  idataReadHooked := fun _ => false
  idataWriteHooked := fun _ => false
  sfrReadHooked := fun _ => false
  sfrWriteHooked := fun _ => false
  hookRead := fun _ => 0
  hookLog := []

/-- Modelled from the spec: `cpu.py` (class `CPU8051`) is not under the
sources provided; per the spec the CPU state carries PC, the accumulator
A, B, PSW, SP, DPTR and the pending-interrupt flags, of which only the
ext1 flag (`_ext1_pending`, armed by the hardware clock) is needed here. -/
structure Cpu where
  pc : Nat
  a : Nat
  b : Nat
  psw : Nat
  sp : Nat
  dptr : Nat
  ext1Pending : Bool
deriving DecidableEq, Repr

/-- Modelled from the spec: `CPU8051.reset` is in the missing `cpu.py`;
the spec reset state is PC=0, SP=0x07, A=B=0, PSW=0, DPTR=0.  The spec
does not mention the pending flags, so they are left unchanged. -/
def Cpu.reset (c : Cpu) : Cpu :=
  { c with pc := 0, a := 0, b := 0, psw := 0, sp := 0x07, dptr := 0 }

/-- Modelled from the spec: a CPU in its reset state. -/
def Cpu.mk0 : Cpu :=
  { pc := 0, a := 0, b := 0, psw := 0, sp := 0x07, dptr := 0,
    ext1Pending := false }

/-- `emu.py` class `Emulator`: the facade owning the memory and the CPU
(the hardware state is threaded separately in this embedding). -/
structure Emulator where
  memory : Memory
  cpu : Cpu
  instCount : Nat

/-- `Emulator.reset`: reset memory and CPU, zero the instruction counter,
then write the default SP through `write_sfr` (which cannot fail at
address 0x81; the state component is kept). -/
def Emulator.reset (e : Emulator) : Emulator :=
  let m1 := e.memory.reset
  let c1 := e.cpu.reset
  let m2 := (m1.write_sfr 0x81 0x07).1
  { memory := m2, cpu := c1, instCount := 0 }

/-- `hardware.py` `create_hardware_hooks`: the XDATA address ranges routed
to the hardware state (start inclusive, end exclusive). -/
def mmioRanges : List (Nat × Nat) :=
  [(0x06E0, 0x0700), (0x07B0, 0x0800), (0x09F0, 0x0C00), (0x7000, 0x7100),
   (0x1200, 0x1300), (0x9000, 0x9400), (0x92C0, 0x9300), (0xB200, 0xB900),
   (0xC000, 0xC100), (0xC200, 0xC300), (0xC400, 0xC600), (0xC600, 0xC700),
   (0xC800, 0xC900), (0xCA00, 0xCB00), (0xCC00, 0xCE00), (0xCE00, 0xCF00),
   (0xE300, 0xE400), (0xE400, 0xE500), (0xE600, 0xE700), (0xE700, 0xE800),
   (0xEC00, 0xED00)]

/-- Whether an XDATA address is hooked to the hardware state. -/
def mmioHooked (a : Nat) : Bool :=
  mmioRanges.any (fun p => decide (p.1 ≤ a) && decide (a < p.2))

/-- `Emulator.__init__`: fresh memory with the hardware MMIO hooks
installed, fresh CPU, zero instruction count. -/
def Emulator.mk0 : Emulator where
  memory := { Memory.mk0 with xdataReadHooked := mmioHooked,
                              xdataWriteHooked := mmioHooked }
  cpu := Cpu.mk0
  instCount := 0

/-- Embedding of `hardware.py` class `HardwareState`.  `regs` is the MMIO
register dict (`Nat → Option Nat`), `pollCounts` and `writeCounts` are
counter dicts whose absent keys read as 0, and `uartLog` records the
bytes the UART TX callback publishes.  `dispatcherCount` and
`pdHandlerTriggered` model the lazily created `_dispatcher_count` and
`_pd_handler_triggered` attributes, whose lazy creation with initial
values 0 and False is equivalent to starting from those values.  The
saved `self.cpu` reference is used only for log output and is dropped. -/
structure HardwareState where
  cycles : Nat
  initStage : Nat
  pcieLinkUp : Bool
  usbConnected : Bool
  usbConnectDelay : Nat
  pollCounts : Nat → Nat
  autoReadyThreshold : Nat
  regs : Nat → Option Nat
  writeCounts : Nat → Nat
  dispatcherCount : Nat
  pdHandlerTriggered : Bool
  uartLog : List Nat

/-- `HardwareState._init_defaults`: the default register values, in source
order (all addresses are distinct, so lookup order is immaterial). -/
def defaultRegs : List (Nat × Nat) :=
  [(0x92C0, 0x81), (0x92C1, 0x03), (0x92C5, 0x04), (0x92E0, 0x02),
   (0x9000, 0x00), (0x90E0, 0x00), (0x9100, 0x00), (0x9105, 0x00),
   (0x91C0, 0x02), (0x92F7, 0x40),
   (0xC412, 0x02), (0xC520, 0x80),
   (0xB296, 0x02), (0xB401, 0x01), (0xB480, 0x01),
   (0xC8D6, 0x04),
   (0xC8A9, 0x00), (0xC8B8, 0x00),
   (0xC009, 0x60),
   (0xCC11, 0x00), (0xCC17, 0x00), (0xCC1D, 0x00), (0xCC23, 0x00),
   (0x09FA, 0x04), (0x09F9, 0x83),
   (0x07EA, 0x01),
   (0x0AF0, 0x01), (0x07E5, 0x01), (0x07E8, 0x01), (0x0A7D, 0x01),
   (0x707E, 0x5A), (0x707F, 0x5A),
   (0x0A59, 0x01), (0x0AE1, 0x02), (0x0AE2, 0x00), (0x0AE3, 0x00),
   (0x0AE7, 0x01), (0x0AE8, 0x0F),
   (0x0B2E, 0x01), (0x0B2F, 0x02), (0x0B30, 0x02),
   (0xCC33, 0x04),
   (0x1235, 0x00), (0x1238, 0x00),
   (0xC800, 0x00), (0xC802, 0x00), (0xC806, 0x00), (0xC80A, 0x40),
   (0xCA0D, 0x08), (0xCA0E, 0x04),
   (0x0A9D, 0x01), (0x0A9E, 0x00),
   (0xE795, 0x01), (0xE7E3, 0x80), (0xB238, 0x00),
   (0xC6B3, 0x30),
   (0xC620, 0x00), (0xC655, 0x08), (0xC65A, 0x09),
   (0xE40F, 0x01), (0xE410, 0x00),
   (0xE41C, 0x00),
   (0xCE89, 0x01),
   (0xCE5D, 0xFF),
   (0xCD31, 0x01),
   (0x06E9, 0x01)]

/-- `HardwareState()` after `__post_init__`: default registers installed,
counters empty, USB disconnected, connect delay 5000, threshold 10. -/
def HardwareState.mk0 : HardwareState where
  cycles := 0
  initStage := 0
  pcieLinkUp := false
  usbConnected := false
  usbConnectDelay := 5000
  pollCounts := fun _ => 0
  autoReadyThreshold := 10
  regs := fun a => defaultRegs.lookup a
  writeCounts := fun _ => 0
  dispatcherCount := 0
  pdHandlerTriggered := false
  uartLog := []

/-- `HardwareState._uart_tx`: publish the byte; register store untouched. -/
def HardwareState.uart_tx (h : HardwareState) (_addr value : Nat) : HardwareState :=
  { h with uartLog := value :: h.uartLog }

/-- `HardwareState._link_state_write`: count writes; ten writes of 0x01
auto-advance the register to 0x02; the poll count resets on write. -/
def HardwareState.link_state_write (h : HardwareState) (addr value : Nat) : HardwareState :=
  let writeCount := h.writeCounts addr + 1
  let h1 := { h with writeCounts := upd h.writeCounts addr writeCount }
  let h2 :=
    if value = 0x01 ∧ 10 ≤ writeCount then
      { h1 with regs := updO h1.regs addr 0x02,
                writeCounts := upd h1.writeCounts addr 0 }
    else
      { h1 with regs := updO h1.regs addr value }
  { h2 with pollCounts := upd h2.pollCounts addr 0 }

/-- `HardwareState._link_state_read`: after two polls of a register stuck
at 0x00 or 0x01, report and store the PHY-ready value 0x02. -/
def HardwareState.link_state_read (h : HardwareState) (addr : Nat) : Nat × HardwareState :=
  let count := h.pollCounts addr
  let value := (h.regs addr).getD 0
  if (value = 0x00 ∨ value = 0x01) ∧ 2 ≤ count then
    (0x02, { h with regs := updO h.regs addr 0x02 })
  else
    (value, h)

/-- `HardwareState._int_system_read`: one-shot latch; bit 0 is cleared in
the store after being observed. -/
def HardwareState.int_system_read (h : HardwareState) (addr : Nat) : Nat × HardwareState :=
  let value := (h.regs addr).getD 0
  if value &&& 0x01 ≠ 0 then
    (value, { h with regs := updO h.regs addr (value &&& 0xFE) })
  else
    (value, h)

/-- `HardwareState._pcie_status_read`: always complete. -/
def HardwareState.pcie_status_read (h : HardwareState) (_addr : Nat) : Nat × HardwareState :=
  (0x02, h)

/-- `HardwareState._pcie_trigger_write`: set the complete status. -/
def HardwareState.pcie_trigger_write (h : HardwareState) (_addr _value : Nat) : HardwareState :=
  { h with regs := updO h.regs 0xB296 0x02 }

/-- `HardwareState._pcie_status_write`: clear the written bits. -/
def HardwareState.pcie_status_write (h : HardwareState) (addr value : Nat) : HardwareState :=
  { h with regs := updO h.regs addr (((h.regs addr).getD 0) &&& (0xFF ^^^ value)) }

/-- `HardwareState._flash_csr_read`: always not busy. -/
def HardwareState.flash_csr_read (h : HardwareState) (_addr : Nat) : Nat × HardwareState :=
  (0x00, h)

/-- `HardwareState._flash_cmd_write`: immediate completion. -/
def HardwareState.flash_cmd_write (h : HardwareState) (_addr _value : Nat) : HardwareState :=
  { h with regs := updO h.regs 0xC8A9 0x00 }

/-- `HardwareState._dma_status_read`: always done. -/
def HardwareState.dma_status_read (h : HardwareState) (_addr : Nat) : Nat × HardwareState :=
  (0x04, h)

/-- `HardwareState._cmd_engine_status_read`: clear bit 0 after three polls. -/
def HardwareState.cmd_engine_status_read (h : HardwareState) (addr : Nat) : Nat × HardwareState :=
  let count := h.pollCounts addr
  let value := (h.regs addr).getD 0
  if 3 ≤ count ∧ value &&& 0x01 ≠ 0 then
    let v := value &&& 0xFE
    (v, { h with regs := updO h.regs addr v })
  else
    (value, h)

/-- `HardwareState._busy_reg_read`: clear bit 0 after three polls. -/
def HardwareState.busy_reg_read (h : HardwareState) (addr : Nat) : Nat × HardwareState :=
  let count := h.pollCounts addr
  let value := (h.regs addr).getD 0
  if 3 ≤ count ∧ value &&& 0x01 ≠ 0 then
    let v := value &&& 0xFE
    (v, { h with regs := updO h.regs addr v })
  else
    (value, h)

/-- `HardwareState._timer_csr_read`: if the timer is enabled (bit 0) and
the address was polled at least three times, set the expired bit (0x02). -/
def HardwareState.timer_csr_read (h : HardwareState) (addr : Nat) : Nat × HardwareState :=
  let count := h.pollCounts addr
  let value := (h.regs addr).getD 0
  if value &&& 0x01 ≠ 0 ∧ 3 ≤ count then
    let v := value ||| 0x02
    (v, { h with regs := updO h.regs addr v })
  else
    (value, h)

/-- `HardwareState._timer_csr_write`: a write with the clear flag (0x04)
drops the expired bit; the value is stored and the poll count reset. -/
def HardwareState.timer_csr_write (h : HardwareState) (addr value : Nat) : HardwareState :=
  let value1 := if value &&& 0x04 ≠ 0 then value &&& 0xFD else value
  { h with regs := updO h.regs addr value1,
           pollCounts := upd h.pollCounts addr 0 }

/-- `HardwareState._bank_reg_read`: clear the trigger bit after three polls. -/
def HardwareState.bank_reg_read (h : HardwareState) (addr : Nat) : Nat × HardwareState :=
  let count := h.pollCounts addr
  let value := (h.regs addr).getD 0
  if 3 ≤ count ∧ value &&& 0x01 ≠ 0 then
    let v := value &&& 0xFE
    (v, { h with regs := updO h.regs addr v })
  else
    (value, h)

/-- `HardwareState._bank_reg_write`: store and reset the poll count. -/
def HardwareState.bank_reg_write (h : HardwareState) (addr value : Nat) : HardwareState :=
  { h with regs := updO h.regs addr value,
           pollCounts := upd h.pollCounts addr 0 }

/-- `HardwareState._phy_status_read`: report the stored value (default
0x01) with bit 0 forced set and bit 1 forced clear; nothing is stored. -/
def HardwareState.phy_status_read (h : HardwareState) (addr : Nat) : Nat × HardwareState :=
  let value := (h.regs addr).getD 0x01
  (((value ||| 0x01) &&& 0xFD), h)

/-- `HardwareState._phy_status_write`: store the value (trace only). -/
def HardwareState.phy_status_write (h : HardwareState) (addr value : Nat) : HardwareState :=
  { h with regs := updO h.regs addr value }

/-- `HardwareState._state_flag_write`: when USB is connected, a changed
nonzero write to 0x0AE3 is forced to 0 so PHY init can exit. -/
def HardwareState.state_flag_write (h : HardwareState) (addr value : Nat) : HardwareState :=
  let prev := (h.regs addr).getD 0
  let value1 := if value ≠ prev ∧ h.usbConnected ∧ value ≠ 0 then 0 else value
  { h with regs := updO h.regs addr value1 }

/-- The callback dispatch of `HardwareState.read` (per the registrations
in `_setup_callbacks`): run the read callback for the address, else
return the stored register, else the unknown-register default (0x00
before `auto_ready_threshold` polls, 0xFF after). -/
def HardwareState.read_dispatch (h : HardwareState) (addr : Nat) :
    Nat × HardwareState :=
  if addr = 0x0B2E ∨ addr = 0x0B2F ∨ addr = 0x0B30 then h.link_state_read addr
  else if addr = 0xB296 then h.pcie_status_read addr
  else if addr = 0xC8A9 then h.flash_csr_read addr
  else if addr = 0xE41C then h.cmd_engine_status_read addr
  else if addr = 0xC8D6 then h.dma_status_read addr
  else if addr = 0xC8B8 then h.busy_reg_read addr
  else if addr = 0xC806 then h.int_system_read addr
  else if addr = 0xCC11 ∨ addr = 0xCC17 ∨ addr = 0xCC1D ∨ addr = 0xCC23 then
    h.timer_csr_read addr
  else if 0x1200 ≤ addr ∧ addr < 0x1300 then h.bank_reg_read addr
  else if addr = 0xCD31 then h.phy_status_read addr
  else
    match h.regs addr with
    | some v => (v, h)
    | none =>
      if h.autoReadyThreshold ≤ h.pollCounts addr then (0xFF, h) else (0x00, h)

/-- `HardwareState.read`: mask the address, count the poll, then dispatch
to the read callback registered for the address. -/
def HardwareState.read (h0 : HardwareState) (a : Nat) : Nat × HardwareState :=
  let addr := a &&& 0xFFFF
  HardwareState.read_dispatch
    { h0 with pollCounts := (upd h0.pollCounts addr (h0.pollCounts addr + 1)) }
    addr

/-- `HardwareState.write`: mask address and value, then dispatch to the
write callback registered for the address, else store the value. -/
def HardwareState.write (h : HardwareState) (a v : Nat) : HardwareState :=
  let addr := a &&& 0xFFFF
  let value := v &&& 0xFF
  if addr = 0xC000 ∨ addr = 0xC001 then h.uart_tx addr value
  else if addr = 0x0B2E ∨ addr = 0x0B2F ∨ addr = 0x0B30 then
    h.link_state_write addr value
  else if addr = 0xB254 then h.pcie_trigger_write addr value
  else if addr = 0xB296 then h.pcie_status_write addr value
  else if addr = 0xC8AA then h.flash_cmd_write addr value
  else if addr = 0xCC11 ∨ addr = 0xCC17 ∨ addr = 0xCC1D ∨ addr = 0xCC23 then
    h.timer_csr_write addr value
  else if 0x1200 ≤ addr ∧ addr < 0x1300 then h.bank_reg_write addr value
  else if addr = 0xCD31 then h.phy_status_write addr value
  else if addr = 0x0AE3 then h.state_flag_write addr value
  else { h with regs := updO h.regs addr value }

/-- The forced PD-handler block inside `HardwareState.tick`: once USB is
connected and 2000 cycles past the connect delay, the fifth time the CPU
is seen at the task dispatcher (PC 0x0300) its DPTR is redirected to the
PD debug handler and the PD trigger registers are set. -/
def HardwareState.pd_force (h : HardwareState) (cpu : Option Cpu) :
    HardwareState × Option Cpu :=
  match cpu with
  | none => (h, none)
  | some c =>
    if h.usbConnected ∧ h.initStage = 2 ∧ h.usbConnectDelay + 2000 < h.cycles then
      if c.pc = 0x0300 ∧ ¬h.pdHandlerTriggered then
        let h1 := { h with dispatcherCount := h.dispatcherCount + 1 }
        if 5 ≤ h1.dispatcherCount then
          let r := updO (updO (updO (updO (updO (updO (updO (updO h1.regs
            0xE40F 0x01) 0xE410 0x00) 0x0AF0 0x01) 0x07E5 0x01) 0x0A7D 0x01)
            0x0A9D 0x01) 0xC80A 0x40) 0xCA0D 0x08
          ({ h1 with pdHandlerTriggered := true, regs := r },
           some { c with dptr := 0xAE89 })
        else (h1, some c)
      else (h, some c)
    else (h, some c)

/-- First line of `HardwareState.tick`: advance the cycle counter. -/
def HardwareState.tick_advance (h : HardwareState) (delta : Nat) : HardwareState :=
  { h with cycles := h.cycles + delta }

/-- `HardwareState.tick` init-stage-0 block: past 1000 cycles the PCIe
link comes up and register 0x1238 reads ready. -/
def HardwareState.tick_stage0 (h : HardwareState) : HardwareState :=
  if h.initStage = 0 ∧ 1000 < h.cycles then
    { h with initStage := 1, pcieLinkUp := true,
             regs := updO h.regs 0x1238 0x01 }
  else h

/-- `HardwareState.tick` init-stage-1 block: past `usb_connect_delay`
cycles the USB plug-in event fires, setting 0x9000 to 0x80
(connected, bit 7), 0x90E0 to 0x02, 0x9100 to 0x02, 0x9105 to 0xFF and
ORing bit 6 into 0xC80A. -/
def HardwareState.tick_connect (h : HardwareState) : HardwareState :=
  if h.initStage = 1 ∧ h.usbConnectDelay < h.cycles then
    let r1 := updO h.regs 0x9000 0x80
    let r2 := updO r1 0x90E0 0x02
    let r3 := updO r2 0x9100 0x02
    let r4 := updO r3 0x9105 0xFF
    let r5 := updO r4 0xC80A (((r4 0xC80A).getD 0) ||| 0x40)
    { h with initStage := 2, usbConnected := true, regs := r5 }
  else h

/-- `HardwareState.tick` periodic-timer block: when the counter sits on a
positive multiple of 1000, OR the timer bit into the system-interrupt
latch 0xC806 and arm the ext1 pending flag of the attached CPU. -/
def HardwareState.tick_timer (p : HardwareState × Option Cpu) :
    HardwareState × Option Cpu :=
  if p.1.cycles % 1000 = 0 ∧ 0 < p.1.cycles then
    let he := { p.1 with
      regs := updO p.1.regs 0xC806 (((p.1.regs 0xC806).getD 0) ||| 0x01) }
    match p.2 with
    | some c => (he, some { c with ext1Pending := true })
    | none => (he, none)
  else p

/-- `HardwareState.tick`: advance the cycle counter, run the init-stage
transitions (PCIe link at 1000 cycles, the USB plug-in event once past
`usb_connect_delay`), the forced PD block, and the periodic timer; the
blocks run in source order on the successively updated state. -/
def HardwareState.tick (h0 : HardwareState) (delta : Nat) (cpu : Option Cpu) :
    HardwareState × Option Cpu :=
  HardwareState.tick_timer
    (((h0.tick_advance delta).tick_stage0.tick_connect).pd_force cpu)

/-- State after `n` successive `read_xdata` calls at one address. -/
def Memory.readN (m : Memory) (addr : Nat) : Nat → Memory
  | 0 => m
  | n + 1 => ((m.readN addr n).read_xdata addr).2

/-- Value observed by the `(n+1)`-th of a run of successive `read_xdata`
calls at one address (`n` is 0-based). -/
def Memory.obsN (m : Memory) (addr n : Nat) : Nat :=
  ((m.readN addr n).read_xdata addr).1

/-- State after `n` successive peripheral reads at one address. -/
def HardwareState.readN (h : HardwareState) (addr : Nat) : Nat → HardwareState
  | 0 => h
  | n + 1 => ((h.readN addr n).read addr).2

/-- Value observed by the `(n+1)`-th of a run of successive peripheral
reads at one address (`n` is 0-based). -/
def HardwareState.obsN (h : HardwareState) (addr n : Nat) : Nat :=
  ((h.readN addr n).read addr).1

/-- Memory used to instantiate the banking theorem: the firmware bytes of
spec scenario S3 with DPX bit 0 set. -/
def memS3 : Memory :=
  { Memory.mk0 with
      code := upd (upd Memory.mk0.code 0x9000 0xAA) 0x10F6B 0xBB,
      sfr := upd Memory.mk0.sfr 0x16 0x01 }

/-- Memory of spec scenario S2: a fresh memory with IDATA[0x20] = 0xA5. -/
def memA5 : Memory :=
  { Memory.mk0 with idata := upd Memory.mk0.idata 0x20 0xA5 }

/-- A memory with write hooks registered on every IDATA, SFR and XDATA
address, used to exercise the hooked-write paths. -/
def memHooked : Memory :=
  { Memory.mk0 with idataWriteHooked := fun _ => true,
                    sfrWriteHooked := fun _ => true,
                    xdataWriteHooked := fun _ => true }

section Lemmas

lemma upd_same (f : Nat → Nat) (a v : Nat) : upd f a v a = v := by
  simp [upd]

lemma upd_ne (f : Nat → Nat) (a v b : Nat) (h : b ≠ a) : upd f a v b = f b := by
  simp [upd, h]

lemma updO_same (f : Nat → Option Nat) (a v : Nat) : updO f a v a = some v := by
  simp [updO]

lemma updO_ne (f : Nat → Option Nat) (a v b : Nat) (h : b ≠ a) :
    updO f a v b = f b := by
  simp [updO, h]

lemma land_ffff_of_lt {a : Nat} (h : a < 0x10000) : a &&& 0xFFFF = a := by
  have h1 : (0xFFFF : Nat) = 2 ^ 16 - 1 := by norm_num
  have h2 : a < 2 ^ 16 := by norm_num; omega
  rw [h1]
  exact Nat.and_pow_two_sub_one_of_lt_two_pow h2

lemma land_ff_of_lt {a : Nat} (h : a < 0x100) : a &&& 0xFF = a := by
  have h1 : (0xFF : Nat) = 2 ^ 8 - 1 := by norm_num
  have h2 : a < 2 ^ 8 := by norm_num; omega
  rw [h1]
  exact Nat.and_pow_two_sub_one_of_lt_two_pow h2

end Lemmas

/-- C1: for a 16-bit address, `read_code` below 0x8000 reads file offset
`a` and is independent of all SFR state; at or above 0x8000 with DPX
(SFR 0x96) bit 0 set it reads file offset `0xFF6B + (a - 0x8000)`, with
bit 0 clear it reads file offset `a`; a selected offset outside the
loaded image reads as 0xFF; and for high addresses the result depends
only on bit 0 of SFR 0x96. -/
theorem read_code_banking (m1 m2 : Memory) (a : Nat) (ha : a < 0x10000)
    (hcode : m1.code = m2.code) (hlen : m1.codeLen = m2.codeLen) :
    (a < 0x8000 →
      m1.read_code a = (if a < m1.codeLen then m1.code a else 0xFF) ∧
      m1.read_code a = m2.read_code a) ∧
    (0x8000 ≤ a → m1.sfr (SFR_DPX - 0x80) &&& 1 ≠ 0 →
      m1.read_code a =
        (if BANK1_FILE_BASE + (a - 0x8000) < m1.codeLen then
          m1.code (BANK1_FILE_BASE + (a - 0x8000)) else 0xFF)) ∧
    (0x8000 ≤ a → m1.sfr (SFR_DPX - 0x80) &&& 1 = 0 →
      m1.read_code a = (if a < m1.codeLen then m1.code a else 0xFF)) ∧
    (0x8000 ≤ a → m1.sfr (SFR_DPX - 0x80) &&& 1 = m2.sfr (SFR_DPX - 0x80) &&& 1 →
      m1.read_code a = m2.read_code a) := by
  have hm : a &&& 0xFFFF = a := land_ffff_of_lt ha
  refine ⟨fun hlo => ⟨?_, ?_⟩, fun hhi hbit => ?_, fun hhi hbit => ?_,
    fun hhi hbit => ?_⟩
  · simp [Memory.read_code, hm, Nat.not_le.mpr hlo]
  · simp [Memory.read_code, hm, Nat.not_le.mpr hlo, hcode, hlen]
  · rw [Nat.and_one_is_mod] at hbit
    have h1 : m1.sfr (SFR_DPX - 0x80) % 2 = 1 := by omega
    simp [Memory.read_code, hm, hhi, h1]
  · rw [Nat.and_one_is_mod] at hbit
    simp [Memory.read_code, hm, hbit]
  · rw [Nat.and_one_is_mod, Nat.and_one_is_mod] at hbit
    by_cases hb : m1.sfr (SFR_DPX - 0x80) % 2 = 1
    · have hb2 : m2.sfr (SFR_DPX - 0x80) % 2 = 1 := hbit ▸ hb
      simp [Memory.read_code, hm, hhi, hb, hb2, hcode, hlen]
    · have h0 : m1.sfr (SFR_DPX - 0x80) % 2 = 0 := by omega
      have h02 : m2.sfr (SFR_DPX - 0x80) % 2 = 0 := hbit ▸ h0
      simp [Memory.read_code, hm, h0, h02, hcode, hlen]

/-- Witness for C1 at the spec scenario S3 input. -/
theorem read_code_banking_w :
    memS3.read_code 0x9000 =
      (if BANK1_FILE_BASE + (0x9000 - 0x8000) < memS3.codeLen then
        memS3.code (BANK1_FILE_BASE + (0x9000 - 0x8000)) else 0xFF) ∧
    memS3.read_code 0x9000 = 0xBB :=
  ⟨(read_code_banking memS3 memS3 0x9000 (by decide) rfl rfl).2.1
      (by decide) (by decide),
   by decide⟩

lemma write_sfr_sp_components (m : Memory) :
    (m.write_sfr 0x81 0x07).1.idata = m.idata ∧
    (m.write_sfr 0x81 0x07).1.xdata = m.xdata ∧
    (m.write_sfr 0x81 0x07).1.sfr = upd m.sfr 0x01 0x07 := by
  have hv : (0x07 : Nat) &&& 0xFF = 0x07 := by decide
  by_cases hk : m.sfrWriteHooked 0x81 <;> simp [Memory.write_sfr, hk, hv]

/-- C2 (counterexample): `Memory.reset` does not clear XDATA (the clear is
commented out in the source), so resetting a state whose XDATA byte
0x0100 is 0x42 leaves that byte at 0x42, not 0. -/
theorem reset_xdata_counterexample :
    (({ Emulator.mk0 with
          memory := { Emulator.mk0.memory with
                        xdata := upd Emulator.mk0.memory.xdata 0x0100 0x42 } }
        : Emulator).reset).memory.xdata 0x0100 = 0x42 ∧
    (({ Emulator.mk0 with
          memory := { Emulator.mk0.memory with
                        xdata := upd Emulator.mk0.memory.xdata 0x0100 0x42 } }
        : Emulator).reset).memory.xdata 0x0100 ≠ 0 := by
  constructor <;> decide

/-- C2 (amended): after every `reset()` the CPU registers are PC=0,
SP=0x07, A=B=0, PSW=0, DPTR=0, all IDATA bytes are 0, all SFR bytes are 0
except SP (SFR 0x81) = 0x07, XDATA 0x7000..0x7FFF is 0xFF,
XDATA[0x0AE5]=0x00, XDATA[0x0AF0]=0x3F, and every other XDATA byte keeps
the value it had before the reset (0 on a freshly constructed emulator);
XDATA is not cleared. -/
theorem reset_defaults (e : Emulator) :
    (e.reset).cpu.pc = 0 ∧ (e.reset).cpu.sp = 0x07 ∧ (e.reset).cpu.a = 0 ∧
    (e.reset).cpu.b = 0 ∧ (e.reset).cpu.psw = 0 ∧ (e.reset).cpu.dptr = 0 ∧
    (∀ i, i < 256 → (e.reset).memory.idata i = 0) ∧
    (e.reset).memory.sfr 0x01 = 0x07 ∧
    (∀ i, i < 128 → i ≠ 0x01 → (e.reset).memory.sfr i = 0) ∧
    (∀ x, 0x7000 ≤ x → x < 0x8000 → (e.reset).memory.xdata x = 0xFF) ∧
    (e.reset).memory.xdata 0x0AE5 = 0x00 ∧
    (e.reset).memory.xdata 0x0AF0 = 0x3F ∧
    (∀ x, ¬(0x7000 ≤ x ∧ x < 0x8000) → x ≠ 0x0AE5 → x ≠ 0x0AF0 →
      (e.reset).memory.xdata x = e.memory.xdata x) := by
  obtain ⟨hid, hxd, hsf⟩ := write_sfr_sp_components (e.memory.reset)
  have hmem : (e.reset).memory = (e.memory.reset.write_sfr 0x81 0x07).1 := rfl
  refine ⟨rfl, rfl, rfl, rfl, rfl, rfl, ?_, ?_, ?_, ?_, ?_, ?_, ?_⟩
  · intro i hi
    rw [hmem, hid]
    simp [Memory.reset, hi]
  · rw [hmem, hsf]
    simp [upd]
  · intro i hi hne
    rw [hmem, hsf, upd_ne _ _ _ _ hne]
    simp [Memory.reset, upd_ne _ _ _ _ hne, hi]
  · intro x h1 h2
    rw [hmem, hxd]
    have e1 : x ≠ 0x0AF0 := by omega
    have e2 : x ≠ 0x0AE5 := by omega
    simp [Memory.reset, upd_ne _ _ _ _ e1, upd_ne _ _ _ _ e2, h1, h2]
  · rw [hmem, hxd]
    simp [Memory.reset, upd]
  · rw [hmem, hxd]
    simp [Memory.reset, upd]
  · intro x hrange h5 h0
    rw [hmem, hxd]
    simp [Memory.reset, upd_ne _ _ _ _ h0, upd_ne _ _ _ _ h5, hrange]

/-- Witness for C2 at a freshly constructed emulator. -/
theorem reset_defaults_w :
    (Emulator.mk0.reset).memory.idata 0x30 = 0 ∧
    (Emulator.mk0.reset).memory.sfr 0x05 = 0 ∧
    (Emulator.mk0.reset).memory.xdata 0x7123 = 0xFF ∧
    (Emulator.mk0.reset).memory.xdata 0x0123 = Emulator.mk0.memory.xdata 0x0123 := by
  obtain ⟨-, -, -, -, -, -, h7, -, h9, h10, -, -, h13⟩ :=
    reset_defaults Emulator.mk0
  exact ⟨h7 0x30 (by norm_num), h9 0x05 (by norm_num) (by norm_num),
    h10 0x7123 (by norm_num) (by norm_num),
    h13 0x0123 (by omega) (by norm_num) (by norm_num)⟩

lemma write_xdata_1238 (m : Memory) (hw : m.xdataWriteHooked 0x1238 = false) :
    m.write_xdata 0x1238 0x01 = { m with xdata := upd m.xdata 0x1238 0x01 } := by
  have ha : (0x1238 : Nat) &&& 0xFFFF = 0x1238 := by decide
  have hv : (0x01 : Nat) &&& 0xFF = 0x01 := by decide
  simp [Memory.write_xdata, ha, hv, hw]

lemma sync_step_count (m : Memory) (hr : m.xdataReadHooked 0x1238 = false)
    (hx : m.xdata 0x1238 = 0x01) (hp : m.syncFlagPolls 0x1238 + 1 < 5) :
    (m.read_xdata 0x1238).1 = 0x01 ∧
    (m.read_xdata 0x1238).2.xdata 0x1238 = 0x01 ∧
    (m.read_xdata 0x1238).2.syncFlagPolls 0x1238 = m.syncFlagPolls 0x1238 + 1 ∧
    (m.read_xdata 0x1238).2.xdataReadHooked = m.xdataReadHooked := by
  have ha : (0x1238 : Nat) &&& 0xFFFF = 0x1238 := by decide
  have h1 : ¬(4 ≤ m.syncFlagPolls 0x1238) := by omega
  simp [Memory.read_xdata, SYNC_FLAG_ADDRS, SYNC_FLAG_CLEAR_AFTER, ha, hr, hx,
    h1, upd]

lemma sync_step_clear (m : Memory) (hr : m.xdataReadHooked 0x1238 = false)
    (hx : m.xdata 0x1238 = 0x01) (hp : 5 ≤ m.syncFlagPolls 0x1238 + 1) :
    (m.read_xdata 0x1238).1 = 0x00 ∧
    (m.read_xdata 0x1238).2.xdata 0x1238 = 0x00 ∧
    (m.read_xdata 0x1238).2.syncFlagPolls 0x1238 = 0 ∧
    (m.read_xdata 0x1238).2.xdataReadHooked = m.xdataReadHooked := by
  have ha : (0x1238 : Nat) &&& 0xFFFF = 0x1238 := by decide
  have h1 : 4 ≤ m.syncFlagPolls 0x1238 := by omega
  simp [Memory.read_xdata, SYNC_FLAG_ADDRS, SYNC_FLAG_CLEAR_AFTER, ha, hr, hx,
    h1, upd]

lemma sync_step_zero (m : Memory) (hr : m.xdataReadHooked 0x1238 = false)
    (hx : m.xdata 0x1238 = 0x00) :
    m.read_xdata 0x1238 = (0x00, m) := by
  have ha : (0x1238 : Nat) &&& 0xFFFF = 0x1238 := by decide
  simp [Memory.read_xdata, SYNC_FLAG_ADDRS, ha, hr, hx]

lemma sync_stable (s : Memory) (hr : s.xdataReadHooked 0x1238 = false)
    (hx : s.xdata 0x1238 = 0x00) : ∀ j, s.readN 0x1238 j = s := by
  intro j
  induction j with
  | zero => rfl
  | succ n ih => rw [Memory.readN, ih, sync_step_zero s hr hx]

lemma readN_add (m : Memory) (addr a b : Nat) :
    m.readN addr (a + b) = (m.readN addr a).readN addr b := by
  induction b with
  | zero => rfl
  | succ n ih => rw [Nat.add_succ, Memory.readN, ih, Memory.readN]

/-- C3 (counterexample): a `write_xdata` to the sync-flag address does not
reset the poll counter.  Write 0x01 to 0x1238, read twice (counter 2),
write 0x01 again: the third read after that second write already observes
0x00, not 0x01, and the counter right after the second write is 2. -/
theorem sync_flag_counterexample :
    (((Memory.mk0.write_xdata 0x1238 0x01).readN 0x1238 2).write_xdata
        0x1238 0x01).obsN 0x1238 2 = 0x00 ∧
    (((Memory.mk0.write_xdata 0x1238 0x01).readN 0x1238 2).write_xdata
        0x1238 0x01).obsN 0x1238 2 ≠ 0x01 ∧
    (((Memory.mk0.write_xdata 0x1238 0x01).readN 0x1238 2).write_xdata
        0x1238 0x01).syncFlagPolls 0x1238 = 2 := by
  refine ⟨by decide, by decide, by decide⟩

/-- C3 (amended): with the poll counter of 0x1238 at zero (as after an
auto-clear, or in a fresh memory), a write of 0x01 is followed by four
reads observing 0x01, a fifth read observing 0x00, and every later read
observing 0x00 until the next write; writes to the address do NOT reset
the poll counter (it is reset only when the auto-clear fires). -/
theorem sync_flag_auto_clear (m : Memory)
    (hr : m.xdataReadHooked 0x1238 = false)
    (hw : m.xdataWriteHooked 0x1238 = false)
    (hp : m.syncFlagPolls 0x1238 = 0) :
    (∀ k, k < 4 → (m.write_xdata 0x1238 0x01).obsN 0x1238 k = 0x01) ∧
    (∀ k, 4 ≤ k → (m.write_xdata 0x1238 0x01).obsN 0x1238 k = 0x00) ∧
    (∀ (m1 : Memory) (a v : Nat),
      (m1.write_xdata a v).syncFlagPolls = m1.syncFlagPolls) := by
  have hm1 : m.write_xdata 0x1238 0x01 =
      { m with xdata := upd m.xdata 0x1238 0x01 } := write_xdata_1238 m hw
  set w : Memory := m.write_xdata 0x1238 0x01 with hw1
  have h0x : w.xdata 0x1238 = 0x01 := by rw [hm1]; simp [upd]
  have h0p : w.syncFlagPolls 0x1238 = 0 := by rw [hm1]; exact hp
  have h0r : w.xdataReadHooked 0x1238 = false := by rw [hm1]; exact hr
  obtain ⟨o0, x1, p1, r1⟩ := sync_step_count w h0r h0x (by omega)
  have hx1 : (w.readN 0x1238 1).xdata 0x1238 = 0x01 := x1
  have hr1 : (w.readN 0x1238 1).xdataReadHooked 0x1238 = false := by
    show (w.read_xdata 0x1238).2.xdataReadHooked 0x1238 = false
    rw [r1]; exact h0r
  have hp1 : (w.readN 0x1238 1).syncFlagPolls 0x1238 = 1 := by
    show (w.read_xdata 0x1238).2.syncFlagPolls 0x1238 = 1
    rw [p1, h0p]
  obtain ⟨o1, x2, p2, r2⟩ :=
    sync_step_count (w.readN 0x1238 1) hr1 hx1 (by rw [hp1]; omega)
  have hx2 : (w.readN 0x1238 2).xdata 0x1238 = 0x01 := x2
  have hr2 : (w.readN 0x1238 2).xdataReadHooked 0x1238 = false := by
    show ((w.readN 0x1238 1).read_xdata 0x1238).2.xdataReadHooked 0x1238 = false
    rw [r2]; exact hr1
  have hp2 : (w.readN 0x1238 2).syncFlagPolls 0x1238 = 2 := by
    show ((w.readN 0x1238 1).read_xdata 0x1238).2.syncFlagPolls 0x1238 = 2
    rw [p2, hp1]
  obtain ⟨o2, x3, p3, r3⟩ :=
    sync_step_count (w.readN 0x1238 2) hr2 hx2 (by rw [hp2]; omega)
  have hx3 : (w.readN 0x1238 3).xdata 0x1238 = 0x01 := x3
  have hr3 : (w.readN 0x1238 3).xdataReadHooked 0x1238 = false := by
    show ((w.readN 0x1238 2).read_xdata 0x1238).2.xdataReadHooked 0x1238 = false
    rw [r3]; exact hr2
  have hp3 : (w.readN 0x1238 3).syncFlagPolls 0x1238 = 3 := by
    show ((w.readN 0x1238 2).read_xdata 0x1238).2.syncFlagPolls 0x1238 = 3
    rw [p3, hp2]
  obtain ⟨o3, x4, p4, r4⟩ :=
    sync_step_count (w.readN 0x1238 3) hr3 hx3 (by rw [hp3]; omega)
  have hx4 : (w.readN 0x1238 4).xdata 0x1238 = 0x01 := x4
  have hr4 : (w.readN 0x1238 4).xdataReadHooked 0x1238 = false := by
    show ((w.readN 0x1238 3).read_xdata 0x1238).2.xdataReadHooked 0x1238 = false
    rw [r4]; exact hr3
  have hp4 : (w.readN 0x1238 4).syncFlagPolls 0x1238 = 4 := by
    show ((w.readN 0x1238 3).read_xdata 0x1238).2.syncFlagPolls 0x1238 = 4
    rw [p4, hp3]
  obtain ⟨o4, x5, p5, r5⟩ :=
    sync_step_clear (w.readN 0x1238 4) hr4 hx4 (by rw [hp4])
  have hx5 : (w.readN 0x1238 5).xdata 0x1238 = 0x00 := x5
  have hr5 : (w.readN 0x1238 5).xdataReadHooked 0x1238 = false := by
    show ((w.readN 0x1238 4).read_xdata 0x1238).2.xdataReadHooked 0x1238 = false
    rw [r5]; exact hr4
  refine ⟨?_, ?_, ?_⟩
  · intro k hk
    interval_cases k
    · exact o0
    · exact o1
    · exact o2
    · exact o3
  · intro k hk
    rcases Nat.eq_or_lt_of_le hk with h4 | h5
    · exact h4 ▸ o4
    · obtain ⟨j, rfl⟩ : ∃ j, k = 5 + j := ⟨k - 5, by omega⟩
      show ((w.readN 0x1238 (5 + j)).read_xdata 0x1238).1 = 0x00
      rw [readN_add, sync_stable _ hr5 hx5 j, sync_step_zero _ hr5 hx5]
  · intro m1 a v
    by_cases hk : m1.xdataWriteHooked (a &&& 0xFFFF) = true <;>
      simp [Memory.write_xdata, hk]

/-- Witness for C3 at a fresh memory. -/
theorem sync_flag_auto_clear_w :
    (Memory.mk0.write_xdata 0x1238 0x01).obsN 0x1238 3 = 0x01 ∧
    (Memory.mk0.write_xdata 0x1238 0x01).obsN 0x1238 4 = 0x00 := by
  obtain ⟨h1, h2, -⟩ := sync_flag_auto_clear Memory.mk0 rfl rfl rfl
  exact ⟨h1 3 (by norm_num), h2 4 (by norm_num)⟩

lemma shiftr3 (b : Nat) : b >>> 3 = b / 8 := by
  rw [Nat.shiftRight_eq_div_pow]

lemma land7 (b : Nat) : b &&& 0x07 = b % 8 := by
  have h : (0x07 : Nat) = 2 ^ 3 - 1 := by norm_num
  rw [h, Nat.and_pow_two_sub_one_eq_mod]

lemma land_shift_bne (x i : Nat) : (x &&& (1 <<< i) != 0) = x.testBit i := by
  rw [Nat.shiftLeft_eq, one_mul]
  rcases h : x.testBit i with hf | ht
  · have hz : x &&& 2 ^ i = 0 := by
      refine Nat.eq_of_testBit_eq fun j => ?_
      rw [Nat.testBit_and]
      rcases eq_or_ne j i with rfl | hne
      · simp [h]
      · simp [Nat.testBit_two_pow_of_ne (Ne.symm hne), Nat.zero_testBit]
    simp [hz]
  · have ht2 : (x &&& 2 ^ i).testBit i = true := by
      rw [Nat.testBit_and, h, Nat.testBit_two_pow_self]; rfl
    have hne : x &&& 2 ^ i ≠ 0 := by
      intro h0; rw [h0, Nat.zero_testBit] at ht2; exact Bool.noConfusion ht2
    simp [hne]

lemma mask_ff_testBit : ∀ j, j < 8 → (0xFF : Nat).testBit j = true := by decide

lemma mask_clear_self : ∀ i, i < 8 →
    ((0xFF : Nat) ^^^ (1 <<< i)).testBit i = false := by decide

lemma mask_clear_ne : ∀ i, i < 8 → ∀ j, j < 8 → j ≠ i →
    ((0xFF : Nat) ^^^ (1 <<< i)).testBit j = true := by decide

set_option maxRecDepth 4096 in
lemma sfr_bit_range : ∀ b, b < 0x100 → 0x80 ≤ b →
    0x80 ≤ b &&& 0xF8 ∧ b &&& 0xF8 < 0x100 := by decide

lemma read_sfr_plain (m : Memory) (addr : Nat) (h1 : 0x80 ≤ addr)
    (h2 : addr < 0x100) (hr : m.sfrReadHooked addr = false) :
    m.read_sfr addr = .ok (m.sfr (addr - 0x80)) := by
  have h3 : addr - 0x80 < 0x80 := by omega
  simp [Memory.read_sfr, Nat.not_lt.mpr h1, hr, h3]

lemma write_sfr_plain (m : Memory) (addr v : Nat) (h1 : 0x80 ≤ addr)
    (h2 : addr < 0x100) (hw : m.sfrWriteHooked addr = false) :
    m.write_sfr addr v =
      ({ m with sfr := upd m.sfr (addr - 0x80) (v &&& 0xFF) }, none) := by
  have h3 : addr - 0x80 < 0x80 := by omega
  simp [Memory.write_sfr, Nat.not_lt.mpr h1, hw, h3]

/-- C4: bit address b below 0x80 addresses bit b mod 8 of IDATA byte
0x20 + b/8; b at or above 0x80 addresses bit b mod 8 of SFR b &&& 0xF8;
a `write_bit` changes at most that one bit, preserving the other seven
bits of the byte and every other byte; and on the S2 memory
(IDATA[0x20] = 0xA5) the bit reads give 1,0,1,1,0,1 at bit addresses
0x00, 0x01, 0x02, 0x05, 0x06, 0x07, and clearing bit address 0x00 leaves
IDATA[0x20] = 0xA4. -/
theorem bit_addressing (m : Memory) (b : Nat) (v : Bool) (hb : b < 0x100)
    (hsr : m.sfrReadHooked (b &&& 0xF8) = false)
    (hsw : m.sfrWriteHooked (b &&& 0xF8) = false) :
    (b < 0x80 →
      m.read_bit b = .ok ((m.idata (0x20 + b / 8)).testBit (b % 8)) ∧
      ((m.write_bit b v).1.idata (0x20 + b / 8)).testBit (b % 8) = v ∧
      (∀ j, j < 8 → j ≠ b % 8 →
        ((m.write_bit b v).1.idata (0x20 + b / 8)).testBit j =
          (m.idata (0x20 + b / 8)).testBit j) ∧
      (∀ x, x ≠ 0x20 + b / 8 → (m.write_bit b v).1.idata x = m.idata x)) ∧
    (0x80 ≤ b →
      m.read_bit b = .ok ((m.sfr ((b &&& 0xF8) - 0x80)).testBit (b % 8)) ∧
      ((m.write_bit b v).1.sfr ((b &&& 0xF8) - 0x80)).testBit (b % 8) = v ∧
      (∀ j, j < 8 → j ≠ b % 8 →
        ((m.write_bit b v).1.sfr ((b &&& 0xF8) - 0x80)).testBit j =
          (m.sfr ((b &&& 0xF8) - 0x80)).testBit j) ∧
      (∀ x, x ≠ (b &&& 0xF8) - 0x80 → (m.write_bit b v).1.sfr x = m.sfr x)) ∧
    (memA5.read_bit 0x00 = .ok true ∧ memA5.read_bit 0x01 = .ok false ∧
      memA5.read_bit 0x02 = .ok true ∧ memA5.read_bit 0x05 = .ok true ∧
      memA5.read_bit 0x06 = .ok false ∧ memA5.read_bit 0x07 = .ok true ∧
      (memA5.write_bit 0x00 false).1.idata 0x20 = 0xA4) := by
  have h8 : b % 8 < 8 := Nat.mod_lt _ (by norm_num)
  refine ⟨?_, ?_, rfl, rfl, rfl, rfl, rfl, rfl, by decide⟩
  · intro hlo
    have hwb : (m.write_bit b v).1 =
        { m with idata := (upd m.idata (0x20 + b >>> 3)
            (if v then m.idata (0x20 + b >>> 3) ||| 1 <<< (b &&& 0x07)
             else m.idata (0x20 + b >>> 3) &&& (0xFF ^^^ 1 <<< (b &&& 0x07)))) } := by
      simp [Memory.write_bit, hlo]
    refine ⟨?_, ?_, ?_, ?_⟩
    · simp only [Memory.read_bit, if_pos hlo]
      rw [shiftr3, land7, land_shift_bne]
    · rw [hwb]
      simp only [shiftr3, land7, upd_same]
      cases v
      · simp [Nat.testBit_and, mask_clear_self _ h8]
      · simp [Nat.testBit_or, Nat.shiftLeft_eq, one_mul, Nat.testBit_two_pow_self]
    · intro j hj hne
      rw [hwb]
      simp only [shiftr3, land7, upd_same]
      cases v
      · simp [Nat.testBit_and, mask_clear_ne _ h8 _ hj hne]
      · simp [Nat.testBit_or, Nat.shiftLeft_eq, one_mul,
          Nat.testBit_two_pow_of_ne (Ne.symm hne)]
    · intro x hx
      rw [hwb]
      exact upd_ne _ _ _ _ (by rw [shiftr3]; exact hx)
  · intro hhi
    obtain ⟨hR1, hR2⟩ := sfr_bit_range b hb hhi
    have hnl : ¬ b < 0x80 := Nat.not_lt.mpr hhi
    have hrd := read_sfr_plain m (b &&& 0xF8) hR1 hR2 hsr
    have hwr := write_sfr_plain m (b &&& 0xF8)
      (if v then m.sfr ((b &&& 0xF8) - 0x80) ||| 1 <<< (b &&& 0x07)
       else m.sfr ((b &&& 0xF8) - 0x80) &&& (0xFF ^^^ 1 <<< (b &&& 0x07)))
      hR1 hR2 hsw
    have hwb : (m.write_bit b v).1 =
        { m with sfr := (upd m.sfr ((b &&& 0xF8) - 0x80)
            ((if v then m.sfr ((b &&& 0xF8) - 0x80) ||| 1 <<< (b &&& 0x07)
              else m.sfr ((b &&& 0xF8) - 0x80) &&& (0xFF ^^^ 1 <<< (b &&& 0x07)))
             &&& 0xFF)) } := by
      simp only [Memory.write_bit, if_neg hnl, hrd, hwr]
    refine ⟨?_, ?_, ?_, ?_⟩
    · simp only [Memory.read_bit, if_neg hnl, hrd, Except.map]
      rw [land7, land_shift_bne]
    · rw [hwb]
      simp only [land7, upd_same]
      cases v
      · simp [Nat.testBit_and, mask_clear_self _ h8, mask_ff_testBit _ h8]
      · simp [Nat.testBit_and, Nat.testBit_or, Nat.shiftLeft_eq, one_mul,
          Nat.testBit_two_pow_self, mask_ff_testBit _ h8]
    · intro j hj hne
      rw [hwb]
      simp only [land7, upd_same]
      cases v
      · simp [Nat.testBit_and, mask_clear_ne _ h8 _ hj hne, mask_ff_testBit _ hj]
      · simp [Nat.testBit_and, Nat.testBit_or, Nat.shiftLeft_eq, one_mul,
          Nat.testBit_two_pow_of_ne (Ne.symm hne), mask_ff_testBit _ hj]
    · intro x hx
      rw [hwb]
      exact upd_ne _ _ _ _ hx

/-- Witness for C4 at the S2 memory, bit address 0x05. -/
theorem bit_addressing_w :
    memA5.read_bit 0x05 = .ok ((memA5.idata (0x20 + 0x05 / 8)).testBit (0x05 % 8)) ∧
    memA5.read_bit 0x05 = .ok true := by
  obtain ⟨hA, -, -⟩ := bit_addressing memA5 0x05 false (by decide) rfl rfl
  obtain ⟨h1, -, -, -⟩ := hA (by decide)
  exact ⟨h1, by rfl⟩

lemma hw_readN_add (h : HardwareState) (addr a b : Nat) :
    h.readN addr (a + b) = (h.readN addr a).readN addr b := by
  induction b with
  | zero => rfl
  | succ n ih => rw [Nat.add_succ, HardwareState.readN, ih, HardwareState.readN]

lemma timer_read_stable (h : HardwareState) (hreg : h.regs 0xCC11 = some 0x03) :
    (h.read 0xCC11).1 = 0x03 ∧ (h.read 0xCC11).2.regs 0xCC11 = some 0x03 := by
  have ha : (0xCC11 : Nat) &&& 0xFFFF = 0xCC11 := by decide
  by_cases hc : 2 ≤ h.pollCounts 0xCC11 <;>
    simp [HardwareState.read, HardwareState.read_dispatch,
      HardwareState.timer_csr_read, ha, hreg, hc, upd, updO]

/-- C5: starting from reset, after a peripheral write of 0x01 to the timer
CSR 0xCC11 the first and second reads observe 0x01 and every read from
the fourth onward observes 0x03 (enable + expired); and a write of 0x04
stores a value with both the enable bit 0x01 and the expired bit 0x02
clear and resets the poll counter. -/
theorem timer_csr_polling :
    HardwareState.obsN (HardwareState.mk0.write 0xCC11 0x01) 0xCC11 0 = 0x01 ∧
    HardwareState.obsN (HardwareState.mk0.write 0xCC11 0x01) 0xCC11 1 = 0x01 ∧
    (∀ n, 3 ≤ n →
      HardwareState.obsN (HardwareState.mk0.write 0xCC11 0x01) 0xCC11 n = 0x03) ∧
    (∀ h : HardwareState,
      ((h.write 0xCC11 0x04).regs 0xCC11).getD 0 &&& 0x01 = 0 ∧
      ((h.write 0xCC11 0x04).regs 0xCC11).getD 0 &&& 0x02 = 0 ∧
      (h.write 0xCC11 0x04).pollCounts 0xCC11 = 0) := by
  refine ⟨by decide, by decide, ?_, ?_⟩
  · intro n hn
    have hs3 : ((HardwareState.mk0.write 0xCC11 0x01).readN 0xCC11 3).regs 0xCC11
        = some 0x03 := by decide
    have hstab : ∀ k,
        ((((HardwareState.mk0.write 0xCC11 0x01).readN 0xCC11 3).readN 0xCC11
          k).regs 0xCC11) = some 0x03 := by
      intro k
      induction k with
      | zero => exact hs3
      | succ j ih =>
        rw [HardwareState.readN]
        exact (timer_read_stable _ ih).2
    obtain ⟨j, rfl⟩ : ∃ j, n = 3 + j := ⟨n - 3, by omega⟩
    show (((HardwareState.mk0.write 0xCC11 0x01).readN 0xCC11 (3 + j)).read
      0xCC11).1 = 0x03
    rw [hw_readN_add]
    exact (timer_read_stable _ (hstab j)).1
  · intro h
    have ha : (0xCC11 : Nat) &&& 0xFFFF = 0xCC11 := by decide
    refine ⟨?_, ?_, ?_⟩ <;>
      simp [HardwareState.write, HardwareState.timer_csr_write, ha, upd,
        updO] <;> decide

/-- Witness for C5: the sixth read observes 0x03, and the clear write on
the reset state zeroes the poll counter. -/
theorem timer_csr_polling_w :
    HardwareState.obsN (HardwareState.mk0.write 0xCC11 0x01) 0xCC11 5 = 0x03 ∧
    (HardwareState.mk0.write 0xCC11 0x04).pollCounts 0xCC11 = 0 := by
  obtain ⟨-, -, h3, h4⟩ := timer_csr_polling
  exact ⟨h3 5 (by norm_num), (h4 HardwareState.mk0).2.2⟩

lemma tick_stage0_frame (h : HardwareState) :
    h.tick_stage0.cycles = h.cycles ∧
    h.tick_stage0.usbConnectDelay = h.usbConnectDelay ∧
    h.tick_stage0.regs 0x9000 = h.regs 0x9000 ∧
    h.tick_stage0.regs 0xC806 = h.regs 0xC806 := by
  unfold HardwareState.tick_stage0
  split_ifs <;> simp [updO]

lemma tick_stage0_of_stage1 (h : HardwareState) (hs : h.initStage = 1) :
    h.tick_stage0 = h := by
  unfold HardwareState.tick_stage0
  rw [if_neg]
  simp [hs]

lemma tick_connect_fires (h : HardwareState) (hs : h.initStage = 1)
    (hd : h.usbConnectDelay < h.cycles) :
    h.tick_connect.regs 0x9000 = some 0x80 ∧
    h.tick_connect.initStage = 2 ∧
    h.tick_connect.usbConnected = true ∧
    h.tick_connect.cycles = h.cycles ∧
    h.tick_connect.regs 0xC806 = h.regs 0xC806 := by
  unfold HardwareState.tick_connect
  rw [if_pos ⟨hs, hd⟩]
  simp [updO]

lemma tick_connect_frame (h : HardwareState) :
    h.tick_connect.cycles = h.cycles ∧
    h.tick_connect.regs 0xC806 = h.regs 0xC806 ∧
    (h.tick_connect.regs 0x9000 = h.regs 0x9000 ∨
      h.tick_connect.regs 0x9000 = some 0x80) := by
  unfold HardwareState.tick_connect
  split_ifs <;> simp [updO]

lemma pd_force_frame (h : HardwareState) (cpu : Option Cpu) :
    (h.pd_force cpu).1.cycles = h.cycles ∧
    (h.pd_force cpu).1.initStage = h.initStage ∧
    (h.pd_force cpu).1.usbConnected = h.usbConnected ∧
    (h.pd_force cpu).1.regs 0x9000 = h.regs 0x9000 ∧
    (h.pd_force cpu).1.regs 0xC806 = h.regs 0xC806 := by
  rcases cpu with _ | c
  · exact ⟨rfl, rfl, rfl, rfl, rfl⟩
  · simp only [HardwareState.pd_force]
    split_ifs <;> simp [updO]

lemma pd_force_cpu (h : HardwareState) (c : Cpu) :
    ∃ c1, (h.pd_force (some c)).2 = some c1 ∧
      c1.ext1Pending = c.ext1Pending := by
  simp only [HardwareState.pd_force]
  split_ifs <;> exact ⟨_, rfl, rfl⟩

lemma tick_timer_fires (p : HardwareState × Option Cpu)
    (hc : p.1.cycles % 1000 = 0) (hp : 0 < p.1.cycles) :
    (HardwareState.tick_timer p).1.regs 0xC806 =
      some (((p.1.regs 0xC806).getD 0) ||| 0x01) ∧
    (HardwareState.tick_timer p).1.regs 0x9000 = p.1.regs 0x9000 ∧
    (∀ c, p.2 = some c →
      (HardwareState.tick_timer p).2 =
        some { c with ext1Pending := true }) := by
  rcases p with ⟨h1, _ | c⟩
  · simp_all [HardwareState.tick_timer, updO]
  · refine ⟨?_, ?_, ?_⟩
    · simp_all [HardwareState.tick_timer, updO]
    · simp_all [HardwareState.tick_timer, updO]
    · intro c1 hc1
      cases hc1
      simp_all [HardwareState.tick_timer]

lemma tick_timer_frame (p : HardwareState × Option Cpu) :
    (HardwareState.tick_timer p).1.regs 0x9000 = p.1.regs 0x9000 ∧
    (HardwareState.tick_timer p).1.initStage = p.1.initStage ∧
    (HardwareState.tick_timer p).1.usbConnected = p.1.usbConnected ∧
    (¬(p.1.cycles % 1000 = 0 ∧ 0 < p.1.cycles) →
      HardwareState.tick_timer p = p) := by
  refine ⟨?_, ?_, ?_, ?_⟩
  · unfold HardwareState.tick_timer
    split_ifs with hcn
    · rcases p with ⟨h1, _ | c⟩ <;> simp [updO]
    · rfl
  · unfold HardwareState.tick_timer
    split_ifs with hcn
    · rcases p with ⟨h1, _ | c⟩ <;> simp
    · rfl
  · unfold HardwareState.tick_timer
    split_ifs with hcn
    · rcases p with ⟨h1, _ | c⟩ <;> simp
    · rfl
  · intro hn
    unfold HardwareState.tick_timer
    rw [if_neg hn]

lemma link_state_read_regs_other (h : HardwareState) (addr b : Nat)
    (hb : b ≠ addr) : (h.link_state_read addr).2.regs b = h.regs b := by
  simp only [HardwareState.link_state_read]
  split_ifs <;> simp [updO, hb]

lemma cmd_engine_status_read_regs_other (h : HardwareState) (addr b : Nat)
    (hb : b ≠ addr) :
    (h.cmd_engine_status_read addr).2.regs b = h.regs b := by
  simp only [HardwareState.cmd_engine_status_read]
  split_ifs <;> simp [updO, hb]

lemma busy_reg_read_regs_other (h : HardwareState) (addr b : Nat)
    (hb : b ≠ addr) : (h.busy_reg_read addr).2.regs b = h.regs b := by
  simp only [HardwareState.busy_reg_read]
  split_ifs <;> simp [updO, hb]

lemma int_system_read_regs_other (h : HardwareState) (addr b : Nat)
    (hb : b ≠ addr) : (h.int_system_read addr).2.regs b = h.regs b := by
  simp only [HardwareState.int_system_read]
  split_ifs <;> simp [updO, hb]

lemma timer_csr_read_regs_other (h : HardwareState) (addr b : Nat)
    (hb : b ≠ addr) : (h.timer_csr_read addr).2.regs b = h.regs b := by
  simp only [HardwareState.timer_csr_read]
  split_ifs <;> simp [updO, hb]

lemma bank_reg_read_regs_other (h : HardwareState) (addr b : Nat)
    (hb : b ≠ addr) : (h.bank_reg_read addr).2.regs b = h.regs b := by
  simp only [HardwareState.bank_reg_read]
  split_ifs <;> simp [updO, hb]

set_option maxHeartbeats 1000000 in
lemma hw_read_dispatch_regs_other (h : HardwareState) (addr b : Nat)
    (hb : b ≠ addr) : (h.read_dispatch addr).2.regs b = h.regs b := by
  simp only [HardwareState.read_dispatch]
  split_ifs
  · exact link_state_read_regs_other h addr b hb
  · rfl
  · rfl
  · exact cmd_engine_status_read_regs_other h addr b hb
  · rfl
  · exact busy_reg_read_regs_other h addr b hb
  · exact int_system_read_regs_other h addr b hb
  · exact timer_csr_read_regs_other h addr b hb
  · exact bank_reg_read_regs_other h addr b hb
  · rfl
  · rcases hv : h.regs addr with _ | v <;> simp [hv]
  · rcases hv : h.regs addr with _ | v <;> simp [hv]

lemma hw_read_regs_other (h : HardwareState) (a b : Nat)
    (hb : b ≠ a &&& 0xFFFF) :
    (h.read a).2.regs b = h.regs b :=
  hw_read_dispatch_regs_other _ _ _ hb

lemma hw_read_dispatch_9000 (h : HardwareState) :
    (h.read_dispatch 0x9000).2.regs = h.regs := by
  simp only [HardwareState.read_dispatch]
  norm_num
  rcases hv : h.regs 0x9000 with _ | v
  · simp only [hv]
    split_ifs <;> rfl
  · simp only [hv]

lemma hw_read_preserves_9000 (h : HardwareState) (a : Nat)
    (hbit : ((h.regs 0x9000).getD 0).testBit 7 = true) :
    (((h.read a).2.regs 0x9000).getD 0).testBit 7 = true := by
  by_cases ha : a &&& 0xFFFF = 0x9000
  · simp only [HardwareState.read, ha]
    rw [hw_read_dispatch_9000]
    exact hbit
  · rw [hw_read_regs_other h a 0x9000 (fun he => ha he.symm)]
    exact hbit

lemma link_state_write_regs_other (h : HardwareState) (addr value b : Nat)
    (hb : b ≠ addr) : (h.link_state_write addr value).regs b = h.regs b := by
  simp only [HardwareState.link_state_write]
  split_ifs <;> simp [updO, hb]

lemma hw_write_regs_other (h : HardwareState) (a v b : Nat)
    (hb : b ≠ a &&& 0xFFFF) (hb2 : b ≠ 0xB296) (hb3 : b ≠ 0xC8A9) :
    (h.write a v).regs b = h.regs b := by
  simp only [HardwareState.write]
  split_ifs
  · rfl
  · exact link_state_write_regs_other h _ _ _ hb
  · simp [HardwareState.pcie_trigger_write, updO, hb2]
  · simp [HardwareState.pcie_status_write, updO, hb]
  · simp [HardwareState.flash_cmd_write, updO, hb3]
  · simp [HardwareState.timer_csr_write, updO, hb]
  · simp [HardwareState.bank_reg_write, updO, hb]
  · simp [HardwareState.phy_status_write, updO, hb]
  · simp [HardwareState.state_flag_write, updO, hb]
  · simp [updO, hb]

/-- C6 (counterexample): the USB connect event stores 0x80 at 0x9000, not
0x81: after ticking past 1000 cycles and then past the 5000-cycle connect
delay, USB is connected and register 0x9000 holds 0x80. -/
theorem usb_connect_counterexample :
    ((HardwareState.mk0.tick 1001 none).1.tick 4000 none).1.usbConnected
      = true ∧
    ((HardwareState.mk0.tick 1001 none).1.tick 4000 none).1.regs 0x9000
      = some 0x80 ∧
    ¬(((HardwareState.mk0.tick 1001 none).1.tick 4000 none).1.regs 0x9000
      = some 0x81) := by
  refine ⟨by decide, by decide, by decide⟩

/-- C6 (amended): once the clock passes `usb_connect_delay` while in init
stage 1, the connect event fires exactly once (the stage advances to 2)
and sets register 0x9000 to 0x80 (bit 7 set); thereafter bit 7 of 0x9000
stays set across every tick and every peripheral read, and across every
peripheral write except one addressed to 0x9000 itself. -/
theorem usb_connect_event (h : HardwareState) (delta : Nat)
    (cpu : Option Cpu) (a v : Nat) :
    (h.initStage = 1 → h.usbConnectDelay < h.cycles + delta →
      (h.tick delta cpu).1.regs 0x9000 = some 0x80 ∧
      (h.tick delta cpu).1.usbConnected = true ∧
      (h.tick delta cpu).1.initStage = 2) ∧
    (((h.regs 0x9000).getD 0).testBit 7 = true →
      ((((h.tick delta cpu).1.regs 0x9000).getD 0).testBit 7 = true) ∧
      ((((h.read a).2.regs 0x9000).getD 0).testBit 7 = true) ∧
      (a &&& 0xFFFF ≠ 0x9000 →
        (((h.write a v).regs 0x9000).getD 0).testBit 7 = true)) := by
  constructor
  · intro hs hd
    have hS : (h.tick_advance delta).tick_stage0 = h.tick_advance delta :=
      tick_stage0_of_stage1 _ hs
    have hC := tick_connect_fires (h.tick_advance delta) hs hd
    have hP := pd_force_frame ((h.tick_advance delta).tick_connect) cpu
    have hT := tick_timer_frame
      (((h.tick_advance delta).tick_connect).pd_force cpu)
    refine ⟨?_, ?_, ?_⟩
    · simp only [HardwareState.tick, hS]
      rw [hT.1, hP.2.2.2.1, hC.1]
    · simp only [HardwareState.tick, hS]
      rw [hT.2.2.1, hP.2.2.1, hC.2.2.1]
    · simp only [HardwareState.tick, hS]
      rw [hT.2.1, hP.2.1, hC.2.1]
  · intro hbit
    refine ⟨?_, hw_read_preserves_9000 h a hbit, fun hne => ?_⟩
    · have h1 := (tick_stage0_frame (h.tick_advance delta)).2.2.1
      have h2 := (tick_connect_frame ((h.tick_advance delta).tick_stage0)).2.2
      have h3 := (pd_force_frame
        (((h.tick_advance delta).tick_stage0).tick_connect) cpu).2.2.2.1
      have h4 := (tick_timer_frame
        ((((h.tick_advance delta).tick_stage0).tick_connect).pd_force cpu)).1
      simp only [HardwareState.tick]
      rw [h4, h3]
      rcases h2 with h2 | h2
      · rw [h2, h1]; exact hbit
      · rw [h2]; decide
    · rw [hw_write_regs_other h a v 0x9000 (fun he => hne he.symm)
        (by decide) (by decide)]
      exact hbit

/-- Witness for C6: the concrete two-tick run connects USB with 0x9000
holding 0x80. -/
theorem usb_connect_event_w :
    ((HardwareState.mk0.tick 1001 none).1.tick 4000 none).1.regs 0x9000
      = some 0x80 ∧
    ((HardwareState.mk0.tick 1001 none).1.tick 4000 none).1.usbConnected
      = true := by
  obtain ⟨h1, -⟩ :=
    usb_connect_event (HardwareState.mk0.tick 1001 none).1 4000 none 0 0
  obtain ⟨ha, hb, -⟩ := h1 (by decide) (by decide)
  exact ⟨ha, hb⟩

/-- C7 (counterexample): a tick that jumps the counter from 0 to 1001 has
crossed the 1000-cycle boundary, yet bit 0 of the 0xC806 latch stays
clear and the CPU ext1 pending flag stays unarmed: the code fires only
when the counter lands exactly on a multiple of 1000. -/
theorem timer_boundary_counterexample :
    HardwareState.mk0.cycles = 0 ∧
    (HardwareState.mk0.tick 1001 (some Cpu.mk0)).1.cycles = 1001 ∧
    (((HardwareState.mk0.tick 1001 (some Cpu.mk0)).1.regs 0xC806).getD
      0).testBit 0 = false ∧
    (HardwareState.mk0.tick 1001 (some Cpu.mk0)).2 = some Cpu.mk0 ∧
    Cpu.mk0.ext1Pending = false := by
  refine ⟨rfl, by decide, by decide, by decide, rfl⟩

/-- C7 (amended): the timer-tick bit is ORed into the 0xC806 latch and the
ext1 pending flag armed on exactly those ticks after which the cycle
counter equals a positive multiple of 1000; a tick that jumps over a
multiple without landing on it fires nothing and leaves the latch and
the flag untouched. -/
theorem timer_tick_exact (h : HardwareState) (delta : Nat) (c : Cpu) :
    ((h.cycles + delta) % 1000 = 0 → 0 < h.cycles + delta →
      ((((h.tick delta (some c)).1.regs 0xC806).getD 0).testBit 0 = true ∧
       ∃ c1, (h.tick delta (some c)).2 = some c1 ∧
         c1.ext1Pending = true)) ∧
    (¬((h.cycles + delta) % 1000 = 0 ∧ 0 < h.cycles + delta) →
      ((h.tick delta (some c)).1.regs 0xC806 = h.regs 0xC806 ∧
       ∃ c1, (h.tick delta (some c)).2 = some c1 ∧
         c1.ext1Pending = c.ext1Pending)) := by
  have hcyc : ((((h.tick_advance delta).tick_stage0).tick_connect).pd_force
      (some c)).1.cycles = h.cycles + delta := by
    rw [(pd_force_frame _ _).1, (tick_connect_frame _).1,
      (tick_stage0_frame _).1]
    rfl
  obtain ⟨c1, hc1, hext⟩ :=
    pd_force_cpu (((h.tick_advance delta).tick_stage0).tick_connect) c
  constructor
  · intro hm hp
    obtain ⟨ht1, -, ht3⟩ := tick_timer_fires
      ((((h.tick_advance delta).tick_stage0).tick_connect).pd_force (some c))
      (by rw [hcyc]; exact hm) (by rw [hcyc]; exact hp)
    simp only [HardwareState.tick]
    constructor
    · rw [ht1]
      simp [Nat.testBit_or]
    · exact ⟨{ c1 with ext1Pending := true }, ht3 c1 hc1, rfl⟩
  · intro hn
    have hfr := (tick_timer_frame
      ((((h.tick_advance delta).tick_stage0).tick_connect).pd_force
        (some c))).2.2.2 (by rw [hcyc]; exact hn)
    simp only [HardwareState.tick]
    constructor
    · rw [hfr, (pd_force_frame _ _).2.2.2.2, (tick_connect_frame _).2.1,
        (tick_stage0_frame _).2.2.2]
      rfl
    · rw [hfr]
      exact ⟨c1, hc1, hext⟩

/-- Witness for C7: from reset, a 2000-cycle tick lands exactly on a
multiple of 1000 and fires the timer. -/
theorem timer_tick_exact_w :
    (((HardwareState.mk0.tick 2000 (some Cpu.mk0)).1.regs 0xC806).getD
      0).testBit 0 = true ∧
    (∃ c1, (HardwareState.mk0.tick 2000 (some Cpu.mk0)).2 = some c1 ∧
      c1.ext1Pending = true) := by
  obtain ⟨hf, -⟩ := timer_tick_exact HardwareState.mk0 2000 Cpu.mk0
  exact hf (by decide) (by decide)

lemma phy_read_eval (g : HardwareState) :
    (g.read 0xCD31).1 = (((g.regs 0xCD31).getD 0x01 ||| 0x01) &&& 0xFD) ∧
    (g.read 0xCD31).2.regs = g.regs := by
  have ha : (0xCD31 : Nat) &&& 0xFFFF = 0xCD31 := by decide
  simp [HardwareState.read, HardwareState.read_dispatch,
    HardwareState.phy_status_read, ha]

/-- C8 (counterexample): writes to the PHY status register 0xCD31 are NOT
ignored: from reset a read returns 0x01, but after writing 0x10 the next
read returns 0x11 — the stored value shows through bits other than 0
and 1. -/
theorem phy_status_counterexample :
    (HardwareState.mk0.read 0xCD31).1 = 0x01 ∧
    ((HardwareState.mk0.write 0xCD31 0x10).read 0xCD31).1 = 0x11 ∧
    (0x11 : Nat) ≠ 0x01 := by
  refine ⟨by decide, by decide, by decide⟩

/-- C8 (amended): every read of 0xCD31 observes the stored value (default
0x01) with bit 0 forced set and bit 1 forced clear, and stores nothing;
a write stores its value, so subsequent reads return
`(written ||| 1) &&& 0xFD` — bits other than 0 and 1 follow the write. -/
theorem phy_status_register (h : HardwareState) (v : Nat) :
    (h.read 0xCD31).1.testBit 0 = true ∧
    (h.read 0xCD31).1.testBit 1 = false ∧
    (h.read 0xCD31).2.regs = h.regs ∧
    (h.write 0xCD31 v).regs 0xCD31 = some (v &&& 0xFF) ∧
    ((h.write 0xCD31 v).read 0xCD31).1 = ((v &&& 0xFF) ||| 0x01) &&& 0xFD := by
  have c1 : (0x01 : Nat).testBit 0 = true := by decide
  have c2 : (0xFD : Nat).testBit 0 = true := by decide
  have c3 : (0xFD : Nat).testBit 1 = false := by decide
  have hwr : (h.write 0xCD31 v).regs = updO h.regs 0xCD31 (v &&& 0xFF) := by
    have ha : (0xCD31 : Nat) &&& 0xFFFF = 0xCD31 := by decide
    simp [HardwareState.write, HardwareState.phy_status_write, ha]
  refine ⟨?_, ?_, (phy_read_eval h).2, ?_, ?_⟩
  · rw [(phy_read_eval h).1]
    simp [Nat.testBit_and, Nat.testBit_or, c1, c2]
  · rw [(phy_read_eval h).1]
    simp [Nat.testBit_and, c3]
  · rw [hwr, updO_same]
  · rw [(phy_read_eval (h.write 0xCD31 v)).1, hwr, updO_same]
    rfl

/-- C9: with no SFR hooks, `read_sfr` and `write_sfr` on a byte-valued
address raise the invalid-address error exactly when the address is
outside 0x80..0xFF; the failed write returns the memory unchanged; and
in-range accesses never raise. -/
theorem sfr_invalid_address (m : Memory) (addr v : Nat)
    (hr : ∀ x, m.sfrReadHooked x = false)
    (hw : ∀ x, m.sfrWriteHooked x = false)
    (hb : addr < 0x100) :
    ((m.read_sfr addr = .error (.invalidAddress addr)) ↔
      ¬(0x80 ≤ addr ∧ addr ≤ 0xFF)) ∧
    (((m.write_sfr addr v).2 = some (.invalidAddress addr)) ↔
      ¬(0x80 ≤ addr ∧ addr ≤ 0xFF)) ∧
    ((m.write_sfr addr v).2 ≠ none → (m.write_sfr addr v).1 = m) ∧
    (0x80 ≤ addr →
      (∃ n, m.read_sfr addr = .ok n) ∧ (m.write_sfr addr v).2 = none) := by
  by_cases hlt : addr < 0x80
  · have hniff : ¬(0x80 ≤ addr ∧ addr ≤ 0xFF) := by omega
    simp [Memory.read_sfr, Memory.write_sfr, hlt, hniff]
  · have h1 : 0x80 ≤ addr := by omega
    have h2 : addr - 0x80 < 0x80 := by omega
    have hiff : 0x80 ≤ addr ∧ addr ≤ 0xFF := by omega
    simp [Memory.read_sfr, Memory.write_sfr, hlt, hr addr, hw addr, h2, hiff]

/-- Witness for C9: address 0x42 fails with the invalid-address error and
leaves the memory untouched; address 0x90 succeeds. -/
theorem sfr_invalid_address_w :
    Memory.mk0.read_sfr 0x42 = .error (.invalidAddress 0x42) ∧
    (Memory.mk0.write_sfr 0x42 0x07).1 = Memory.mk0 ∧
    (Memory.mk0.write_sfr 0x90 0x07).2 = none := by
  obtain ⟨hA, -, hC, -⟩ := sfr_invalid_address Memory.mk0 0x42 0x07
    (fun _ => rfl) (fun _ => rfl) (by norm_num)
  obtain ⟨-, -, -, hD⟩ := sfr_invalid_address Memory.mk0 0x90 0x07
    (fun _ => rfl) (fun _ => rfl) (by norm_num)
  exact ⟨hA.mpr (by omega), hC (by decide), (hD (by norm_num)).2⟩

/-- C10: `write_idata` and `write_sfr` update the backing-store byte even
when a write hook is registered (and the hook is invoked), while a hooked
`write_xdata` invokes only the hook and leaves the whole XDATA backing
store unchanged. -/
theorem write_hook_backing (m : Memory) (a v addr : Nat)
    (hi : m.idataWriteHooked (a &&& 0xFF) = true)
    (hs1 : 0x80 ≤ addr) (hs2 : addr < 0x100)
    (hsw : m.sfrWriteHooked addr = true)
    (hx : m.xdataWriteHooked (a &&& 0xFFFF) = true) :
    (m.write_idata a v).idata (a &&& 0xFF) = v &&& 0xFF ∧
    (m.write_idata a v).hookLog = (a &&& 0xFF, v &&& 0xFF) :: m.hookLog ∧
    (m.write_sfr addr v).1.sfr (addr - 0x80) = v &&& 0xFF ∧
    (m.write_xdata a v).xdata = m.xdata ∧
    (m.write_xdata a v).hookLog = (a &&& 0xFFFF, v &&& 0xFF) :: m.hookLog := by
  have h2 : addr - 0x80 < 0x80 := by omega
  refine ⟨?_, ?_, ?_, ?_, ?_⟩
  · simp [Memory.write_idata, hi, upd]
  · simp [Memory.write_idata, hi]
  · simp [Memory.write_sfr, Nat.not_lt.mpr hs1, hsw, h2, upd]
  · simp [Memory.write_xdata, hx]
  · simp [Memory.write_xdata, hx]

/-- Witness for C10 on a fully hooked memory. -/
theorem write_hook_backing_w :
    (memHooked.write_idata 0x15 0x123).idata 0x15 = 0x23 ∧
    (memHooked.write_xdata 0x15 0x123).xdata = memHooked.xdata := by
  obtain ⟨h1, -, -, h4, -⟩ := write_hook_backing memHooked 0x15 0x123 0x90
    rfl (by norm_num) (by norm_num) rfl rfl
  have e1 : (0x15 : Nat) &&& 0xFF = 0x15 := by decide
  have e2 : (0x123 : Nat) &&& 0xFF = 0x23 := by decide
  rw [e1, e2] at h1
  exact ⟨h1, h4⟩

end Asm2464
